import Mathlib

/-!
Shallow embedding of the rdp_api repository.

The repository is a small sensor-ingestion service:
* `src/rdp/crud/model.py` declares four SQLAlchemy tables (`value_type`, `value`,
  `device`, `location`) with a composite unique constraint on
  `value(time, value_type_id, device_id)`.
* `src/rdp/crud/crud.py` implements the store operations
  (`add_or_update_value_type`, `add_value`, `get_values`, `add_device`,
  `update_device`, `get_all_device_ids`, ...).
* `src/rdp/sensor/reader.py` implements the background ingestion loop
  (`Reader.start`, `Reader._run`) including the inline 16-byte record decoder.

The embedding models the database as a `Store` of lists of rows.  The backing
engine in `src/rdp/api/main.py` is SQLite (`create_engine("sqlite:///rdb.test.db")`),
whose documented semantics the embedding follows where they matter:
* in a UNIQUE index, NULLs are pairwise distinct (`sqlNullEq`);
* foreign keys are not enforced (no PRAGMA foreign_keys in the repository),
  so dangling `value_type_id` / `device_id` values are legal states;
* NOT NULL column constraints are enforced at commit time;
* a commit may also fail for engine-level reasons (e.g. `OperationalError`
  on a locked database); such externally caused failures are threaded through
  as an explicit `commitFault` environment parameter.

Python exceptions are modelled with `Except` / the `Res` result type; an
uncaught exception is an `err` carrying the database state at the time it
escaped (each session commits or rolls back independently).
-/

/-- Exceptions that the repository's code paths can surface.  `indexError` and
`structError` come from Python (`list[i]` out of range, `struct.unpack` on a
buffer of the wrong size), `typeError` from calling a function with an
unexpected keyword argument, and the rest are SQLAlchemy error classes. -/
inductive PyErr where
  | indexError
  | structError
  | typeError
  | integrityError
  | noResultFound
  | multipleResultsFound
  | operationalError
deriving DecidableEq

/-- Row of the `value_type` table (`model.py`, class `ValueType`).  Columns
`type_name`/`type_unit` are NOT NULL strings; a Python `None` that is never
committed is represented by `""` (both are falsy, which is all the code tests). -/
structure ValueType where
  id : Nat
  type_name : String
  type_unit : String
deriving DecidableEq

/-- Row of the `value` table (`model.py`, class `Value`).  `device_id` is the
nullable foreign key column; the composite unique constraint is on
`(time, value_type_id, device_id)`. -/
structure Value where
  id : Nat
  time : Nat
  value : Nat
  value_type_id : Nat
  device_id : Option Nat
deriving DecidableEq

/-- Row of the `device` table (`model.py`, class `Device`).  `name` and
`description` are nullable; `location_id` is declared `Mapped[int]` without
`Optional`/`nullable=True`, i.e. NOT NULL, but is modelled as `Option Nat`
because SQLAlchemy only enforces the constraint at commit time. -/
structure Device where
  id : Nat
  name : Option String
  description : Option String
  location_id : Option Nat
deriving DecidableEq

/-- Row of the `location` table (`model.py`, class `Location`). -/
structure Location where
  id : Nat
  name : Option String
deriving DecidableEq

/-- The persisted database state: one list of rows per table, plus the two
autoincrement counters for the store-assigned primary keys that the embedded
operations create. -/
structure Store where
  valueTypes : List ValueType
  values : List Value
  devices : List Device
  locations : List Location
  nextValueId : Nat
  nextDeviceId : Nat
deriving DecidableEq

/-- Outcome of an operation that may raise: either a value together with the
committed state, or an escaped exception together with the state at that
point (sessions commit independently, so an error state need not equal the
starting state). -/
inductive Res (α : Type) where
  | ok (a : α) (s : Store)
  | err (e : PyErr) (s : Store)
deriving DecidableEq

/-- Python truthiness of an optional string argument: `None` and `""` are
falsy, every other string is truthy (`if value_type_name:` in `crud.py`). -/
def pyTruthy : Option String → Bool
  | none => false
  | some s => s != ""

/-- Equality as a SQLite UNIQUE index sees it: two NULLs are distinct, so a
pair of columns only collides when both sides are non-NULL and equal. -/
def sqlNullEq : Option Nat → Option Nat → Bool
  | some a, some b => a == b
  | _, _ => false

/-- The check the `value integrity` unique constraint performs on an insert:
some existing row collides on `(time, value_type_id, device_id)` under the
index's NULL semantics. -/
def violatesValueUnique (vals : List Value) (t ty : Nat) (d : Option Nat) : Bool :=
  vals.any (fun v => v.time == t && v.value_type_id == ty && sqlNullEq v.device_id d)

/-- The per-field if/elif chain of `Crud.add_or_update_value_type`: a truthy
supplied value overwrites; otherwise a falsy current value is replaced by the
placeholder; otherwise the current value is kept. -/
def upsertField (supplied : Option String) (current placeholder : String) : String :=
  if pyTruthy supplied then supplied.getD ("")
  else if current == "" then placeholder
  else current

/-- Embeds `Crud.add_or_update_value_type` (`crud.py` lines 20-53).  Looks the
row up (the Python loop keeps the last match of the SELECT), creates a fresh
transient object when absent, then fills `type_name`/`type_unit` field by
field with `upsertField` (placeholders `"TYPE_<id>"` / `"UNIT_<id>"`).  The
session commits immediately: the function returns the row together with the
committed state. -/
def add_or_update_value_type (s : Store) (value_type_id : Nat)
    (value_type_name value_type_unit : Option String) : ValueType × Store :=
  let existing := (s.valueTypes.filter (fun vt => vt.id == value_type_id)).getLast?
  let base : ValueType :=
    match existing with
    | some vt => vt
    | none => ⟨value_type_id, "", ""⟩
  let db_type : ValueType :=
    ⟨base.id,
     upsertField value_type_name base.type_name ("TYPE_" ++ toString value_type_id),
     upsertField value_type_unit base.type_unit ("UNIT_" ++ toString value_type_id)⟩
  let newTypes :=
    match existing with
    | some _ => s.valueTypes.map (fun vt => if vt.id == value_type_id then db_type else vt)
    | none => s.valueTypes ++ [db_type]
  (db_type, { s with valueTypes := newTypes })

/-- Embeds `Crud.add_value` (`crud.py` lines 55-73).  The value type is
resolved through `add_or_update_value_type`, which runs *in its own session
and commits on its own*; only then does the outer session insert the value row
and commit.  `commitFault` injects an engine-level failure of that outer
commit (e.g. `OperationalError` on a locked SQLite file); otherwise the commit
fails exactly when the `value integrity` unique constraint is violated, in
which case the outer transaction rolls back (the already-committed resolve
step is not undone) and the `IntegrityError` is re-raised. -/
def add_value (s : Store) (value_time value_type value_value : Nat)
    (device_id : Option Nat) (commitFault : Option PyErr) : Res Unit :=
  let resolved := add_or_update_value_type s value_type none none
  let db_type := resolved.1
  let s1 := resolved.2
  match commitFault with
  | some e => .err e s1
  | none =>
    if violatesValueUnique s1.values value_time db_type.id device_id then
      .err .integrityError s1
    else
      .ok () { s1 with
        values := s1.values ++ [⟨s1.nextValueId, value_time, value_value, db_type.id, device_id⟩],
        nextValueId := s1.nextValueId + 1 }

/-- Embeds `Crud.get_values` (`crud.py` lines 99-123).  When `value_type_id`
is given the statement joins `Value.value_type` and filters on
`ValueType.id == value_type_id` (so the row survives only if its type row
exists); `start`/`end` add `time >=` / `time <=` conditions; the result is
ordered by `Value.time`. -/
def get_values (s : Store) (value_type_id : Option Nat) (start end_ : Option Nat) : List Value :=
  let rows1 :=
    match value_type_id with
    | none => s.values
    | some ty =>
      s.values.filter (fun v => s.valueTypes.any (fun vt => vt.id == v.value_type_id && vt.id == ty))
  let rows2 :=
    match start with
    | none => rows1
    | some a => rows1.filter (fun v => decide (a ≤ v.time))
  let rows3 :=
    match end_ with
    | none => rows2
    | some b => rows2.filter (fun v => decide (v.time ≤ b))
  List.insertionSort (fun u v => u.time ≤ v.time) rows3

/-- Embeds `Crud.add_device` (`crud.py` lines 128-141).  The function only
accepts `name` and `description`; the created row therefore has no
`location_id`, and since the `device.location_id` column is NOT NULL the
commit raises `IntegrityError`, which is logged, rolled back and re-raised. -/
def add_device (s : Store) (name description : Option String) : Res Device :=
  let new_device : Device := ⟨s.nextDeviceId, name, description, none⟩
  if new_device.location_id.isNone then
    .err .integrityError s
  else
    .ok new_device
      { s with devices := s.devices ++ [new_device], nextDeviceId := s.nextDeviceId + 1 }

/-- Embeds `Crud.update_device` (`crud.py` lines 144-164).  `one()` raises
`NoResultFound` for zero matches and `MultipleResultsFound` for more than one
(impossible while the primary key is unique); a non-`None` argument overwrites
the corresponding field, then the session commits. -/
def update_device (s : Store) (device_id : Nat) (name description : Option String) : Res Unit :=
  match s.devices.filter (fun d => d.id == device_id) with
  | [] => .err .noResultFound s
  | [_] =>
    let upd := fun (d : Device) =>
      if d.id == device_id then
        { d with
          name := (match name with | some nm => some nm | none => d.name),
          description := (match description with | some ds => some ds | none => d.description) }
      else d
    .ok () { s with devices := s.devices.map upd }
  | _ => .err .multipleResultsFound s

/-- Embeds `Crud.get_all_device_ids` (`crud.py`). -/
def get_all_device_ids (s : Store) : List Nat :=
  s.devices.map (fun d => d.id)

/-! ### The sensor reader (`src/rdp/sensor/reader.py`) -/

/-- Python list indexing `b[i]` for a non-negative index: raises `IndexError`
when out of range. -/
def pyIndex (b : List Nat) (i : Nat) : Except PyErr Nat :=
  if h : i < b.length then .ok (b.get ⟨i, h⟩) else .error .indexError

/-- The accumulation loop `for i in range(n): acc |= test[lo + i] << 8 * i`
from `Reader._run`, with iterations peeled from the left (the recursive call
performs iterations `0..n-1`, then iteration `n` runs; a raised `IndexError`
from the earliest failing iteration propagates first, exactly as in the
Python loop). -/
def leBytesAux (b : List Nat) (lo : Nat) : Nat → Except PyErr Nat
  | 0 => .ok 0
  | n + 1 =>
    match leBytesAux b lo n with
    | .error e => .error e
    | .ok acc =>
      match pyIndex b (lo + n) with
      | .error e => .error e
      | .ok byte => .ok (acc ||| (byte <<< (8 * n)))

/-- Python slice `b[-n:]`: the last `n` elements, or the whole list when it is
shorter than `n`. -/
def pyTailSlice (b : List Nat) (n : Nat) : List Nat := b.drop (b.length - n)

/-- The unsigned little-endian value of a byte list (how `struct.unpack`
assembles the 4 bytes of a `<f`/native-little-endian float into its bit
pattern). -/
def leWord (bs : List Nat) : Nat :=
  bs.foldr (fun byte acc => byte + 256 * acc) 0

/-- `struct.unpack("f", bs)`: requires exactly 4 bytes (otherwise
`struct.error`) and yields the IEEE-754 binary32 bit pattern assembled
little-endian (the native order of the x86-64 container this service runs
in). -/
def structUnpackF (bs : List Nat) : Except PyErr Nat :=
  if bs.length == 4 then .ok (leWord bs) else .error .structError

/-- The decoded record: the 64-bit timestamp, the 32-bit type id, and the raw
IEEE-754 binary32 bit pattern of the measurement value. -/
structure SensorRecord where
  value_time : Nat
  type_num : Nat
  value : Nat
deriving DecidableEq

/-- The decoding block of `Reader._run` (`reader.py` lines 52-59): two
little-endian accumulation loops over bytes 0-7 and 8-11 of the buffer, then
`struct.unpack("f", test[-4::])` on the last four available bytes. -/
def decode_record (test : List Nat) : Except PyErr SensorRecord :=
  match leBytesAux test 0 8 with
  | .error e => .error e
  | .ok value_time =>
    match leBytesAux test 8 4 with
    | .error e => .error e
    | .ok type_num =>
      match structUnpackF (pyTailSlice test 4) with
      | .error e => .error e
      | .ok value => .ok ⟨value_time, type_num, value⟩

/-- The real-number reading of an IEEE-754 binary32 bit pattern: `none` for
the exponent-255 patterns (infinities and NaNs), the denormalized value for
exponent 0, and `(-1)^sign * 1.frac * 2^(exponent-127)` otherwise. -/
def float32OfBits (w : Nat) : Option ℚ :=
  let sign : Nat := w / 2 ^ 31 % 2
  let exponent : Nat := w / 2 ^ 23 % 2 ^ 8
  let frac : Nat := w % 2 ^ 23
  if exponent = 255 then none
  else
    let mag : ℚ :=
      if exponent = 0 then (frac : ℚ) / 2 ^ 149
      else ((2 ^ 23 + frac : ℕ) : ℚ) * 2 ^ exponent / 2 ^ 150
    some (if sign = 1 then -mag else mag)

/-- Binding of a Python keyword-argument call: every supplied keyword must
name a declared parameter, otherwise the call raises `TypeError` before the
callee's body runs. -/
def pyBindKwargs (declared supplied : List String) : Except PyErr Unit :=
  if supplied.all (fun k => declared.contains k) then .ok () else .error .typeError

/-- The keyword parameters of `Crud.add_device(self, name, description=None)`. -/
def add_device_kwnames : List String := ["name", "description"]

/-- The keywords `Reader.start` supplies on each seeding call:
`add_device(name=..., description=..., location_id=...)`. -/
def reader_seed_kwnames : List String := ["name", "description", "location_id"]

/-- Embeds `Reader.start` (`reader.py` lines 34-38): seed two demo devices,
then spawn the background thread.  The returned flag records whether the
thread was spawned.  Both seeding calls pass the keyword `location_id`, which
`Crud.add_device` does not declare, so Python raises `TypeError` at the first
call; there is no surrounding try/except, hence the exception escapes
`start()` and the thread is never created. -/
def reader_start (s : Store) : Res Bool :=
  match pyBindKwargs add_device_kwnames reader_seed_kwnames with
  | .error e => .err e s
  | .ok _ =>
    match add_device s (some ("Device1")) (some ("test")) with
    | .err e s1 => .err e s1
    | .ok _ s1 =>
      match pyBindKwargs add_device_kwnames reader_seed_kwnames with
      | .error e => .err e s1
      | .ok _ =>
        match add_device s1 (some ("Device2")) (some ("jkk")) with
        | .err e s2 => .err e s2
        | .ok _ s2 => .ok true s2

/-- `random.choice(l)` with the random draw supplied as an oracle index:
raises `IndexError` on an empty sequence, otherwise returns some element. -/
def pyChoice (l : List Nat) (i : Nat) : Except PyErr Nat :=
  if l.isEmpty then .error .indexError else .ok (l.getD (i % l.length) 0)

/-- Outcome of one iteration of the `while` body of `Reader._run`. -/
inductive StepResult where
  | next (s : Store)
  | stopped (s : Store)
  | crashed (e : PyErr) (s : Store)
deriving DecidableEq

/-- One iteration of `Reader._run` (`reader.py` lines 45-76): pick a device
with `random.choice` over all device ids, read and decode one 16-byte record
(the bytes read are the `buf` argument; `pick` is the random draw), then
persist it with `add_value`.  Only `IntegrityError` is caught — it breaks the
loop ("All Values read"); any other escaped exception kills the thread. -/
def run_iteration (s : Store) (pick : Nat) (buf : List Nat) (fault : Option PyErr) : StepResult :=
  match pyChoice (get_all_device_ids s) pick with
  | .error e => .crashed e s
  | .ok device_id =>
    match decode_record buf with
    | .error e => .crashed e s
    | .ok r =>
      match add_value s r.value_time r.type_num r.value (some device_id) fault with
      | .ok _ s1 => .next s1
      | .err .integrityError s1 => .stopped s1
      | .err e s1 => .crashed e s1

/-- Final outcome of the ingestion loop. -/
inductive LoopResult where
  | stopped (s : Store)
  | crashed (e : PyErr) (s : Store)
  | fuelOut (s : Store)
deriving DecidableEq

/-- The `while` loop of `Reader._run`, driven by per-iteration oracles for the
random pick, the bytes read from the character device, and an injected engine
fault; `fuel` bounds the number of iterations examined. -/
def run_loop : Nat → Nat → Store → (Nat → Nat) → (Nat → List Nat) → (Nat → Option PyErr) →
    LoopResult
  | 0, _, s, _, _, _ => .fuelOut s
  | fuel + 1, k, s, pick, bufs, faults =>
    match run_iteration s (pick k) (bufs k) (faults k) with
    | .next s1 => run_loop fuel (k + 1) s1 pick bufs faults
    | .stopped s1 => .stopped s1
    | .crashed e s1 => .crashed e s1

/-! ### Helper lemmas -/

/-- Bitwise OR with a value shifted past all bits of the accumulator is plain
addition: this is why the `|=` accumulation in `Reader._run` computes the
little-endian sum. -/
theorem lor_shift_disjoint (k a c : Nat) (h : a < 2 ^ k) :
    a ||| (c <<< k) = a + c * 2 ^ k := by
  apply Nat.eq_of_testBit_eq
  intro j
  have hadd : a + c * 2 ^ k = 2 ^ k * c + a := by ring
  rw [Nat.testBit_lor, Nat.testBit_shiftLeft, hadd, Nat.testBit_mul_pow_two_add c h j]
  by_cases hj : j < k
  · have hk : ¬ (k ≤ j) := by omega
    simp [hj, hk]
  · have hk : k ≤ j := by omega
    have ha : a.testBit j = false :=
      Nat.testBit_lt_two_pow (lt_of_lt_of_le h (Nat.pow_le_pow_right (by omega) hk))
    simp [hj, hk, ha]

/-- A byte list indexed with a default stays below 256. -/
theorem getD_byte_lt (b : List Nat) (hb : ∀ x ∈ b, x < 256) (i : Nat) : b.getD i 0 < 256 := by
  by_cases h : i < b.length
  · rw [List.getD_eq_getElem _ _ h]
    exact hb _ (List.getElem_mem h)
  · rw [List.getD_eq_default _ _ (by omega)]
    omega

/-- Behaviour of the accumulation loop: it raises `IndexError` exactly when
the index range runs past the buffer (and the range is non-empty), and
otherwise computes the little-endian sum of `n` bytes starting at `lo`, which
is bounded by `2 ^ (8 * n)`. -/
theorem leBytesAux_spec (b : List Nat) (hb : ∀ x ∈ b, x < 256) (lo : Nat) :
    ∀ n, ((lo + n ≤ b.length →
            leBytesAux b lo n = .ok (∑ i ∈ Finset.range n, b.getD (lo + i) 0 <<< (8 * i)))
          ∧ (b.length < lo + n → 0 < n → leBytesAux b lo n = .error .indexError))
        ∧ (∑ i ∈ Finset.range n, b.getD (lo + i) 0 <<< (8 * i)) < 2 ^ (8 * n)
  | 0 => by
    refine ⟨⟨fun _ => by simp [leBytesAux], fun _ h0 => absurd h0 (by omega)⟩, by simp⟩
  | n + 1 => by
    obtain ⟨⟨hok, herr⟩, hbound⟩ := leBytesAux_spec b hb lo n
    have hstep : 2 ^ (8 * (n + 1)) = 2 ^ (8 * n) * 256 := by
      rw [Nat.mul_succ, pow_add]
      norm_num
    have hbyte : b.getD (lo + n) 0 < 256 := getD_byte_lt b hb (lo + n)
    refine ⟨⟨?_, ?_⟩, ?_⟩
    · intro hle
      have hidx : lo + n < b.length := by omega
      rw [leBytesAux, hok (by omega)]
      simp only [pyIndex, hidx, dite_true]
      rw [Finset.sum_range_succ]
      have hget : b.get ⟨lo + n, hidx⟩ = b.getD (lo + n) 0 :=
        (List.getD_eq_getElem _ _ hidx).symm
      rw [hget, lor_shift_disjoint (8 * n) _ _ hbound, Nat.shiftLeft_eq]
    · intro hlt _
      rcases Nat.lt_or_ge b.length (lo + n) with hc | hc
      · -- the inner loop already runs out of the buffer (needs n > 0), or,
        -- when n = 0, the inner loop is empty and the single index fails
        rcases Nat.eq_zero_or_pos n with rfl | hn
        · rw [leBytesAux]
          have hno : ¬ (lo < b.length) := by omega
          simp [leBytesAux, pyIndex, hno]
        · rw [leBytesAux, herr hc hn]
      · -- the inner loop fits exactly (b.length = lo + n); the last index fails
        have heq : b.length = lo + n := by omega
        rw [leBytesAux, hok (by omega)]
        have hno : ¬ (lo + n < b.length) := by omega
        simp [pyIndex, hno]
    · rw [Finset.sum_range_succ, hstep, Nat.shiftLeft_eq]
      have h1 : b.getD (lo + n) 0 * 2 ^ (8 * n) ≤ 255 * 2 ^ (8 * n) :=
        Nat.mul_le_mul_right _ (by omega)
      have h2 : (0:ℕ) < 2 ^ (8 * n) := Nat.pos_pow_of_pos _ (by omega)
      omega

/-- When at least 12 bytes are available every indexed access succeeds, so the
decoder returns a full record; its value field is assembled from the last four
*available* bytes (`test[-4::]`). -/
theorem decode_record_of_twelve_le (b : List Nat) (hb : ∀ x ∈ b, x < 256)
    (hlen : 12 ≤ b.length) :
    decode_record b = .ok
      ⟨∑ i ∈ Finset.range 8, b.getD i 0 <<< (8 * i),
       ∑ i ∈ Finset.range 4, b.getD (8 + i) 0 <<< (8 * i),
       leWord (pyTailSlice b 4)⟩ := by
  have h1 := ((leBytesAux_spec b hb 0 8).1).1 (by omega)
  have h1' : leBytesAux b 0 8 = .ok (∑ i ∈ Finset.range 8, b.getD i 0 <<< (8 * i)) := by
    rw [h1]
    simp
  have h2 := ((leBytesAux_spec b hb 8 4).1).1 (by omega)
  have h3 : (pyTailSlice b 4).length = 4 := by
    simp only [pyTailSlice, List.length_drop]
    omega
  simp [decode_record, h1', h2, structUnpackF, h3]

/-- With fewer than 12 bytes one of the two accumulation loops indexes past
the end of the buffer and the decoder raises `IndexError`. -/
theorem decode_record_of_lt_twelve (b : List Nat) (hb : ∀ x ∈ b, x < 256)
    (hlen : b.length < 12) :
    decode_record b = .error .indexError := by
  rcases Nat.lt_or_ge b.length 8 with h8 | h8
  · have h1 := ((leBytesAux_spec b hb 0 8).1).2 (by omega) (by omega)
    simp [decode_record, h1]
  · have h1 := ((leBytesAux_spec b hb 0 8).1).1 (by omega)
    have h2 := ((leBytesAux_spec b hb 8 4).1).2 (by omega) (by omega)
    simp [decode_record, h1, h2]

/-- The little-endian word of a four-byte list, written as the shift-sum the
specification uses. -/
theorem leWord_four (xs : List Nat) (h : xs.length = 4) :
    leWord xs = ∑ i ∈ Finset.range 4, xs.getD i 0 <<< (8 * i) := by
  match xs, h with
  | [x0, x1, x2, x3], _ =>
    simp [leWord, Finset.sum_range_succ, Nat.shiftLeft_eq]
    ring

/-- On a 16-byte buffer the tail slice is exactly bytes 12-15, so the value
word is the little-endian sum over those bytes. -/
theorem leWord_tail16 (b : List Nat) (hlen : b.length = 16) :
    leWord (pyTailSlice b 4) = ∑ i ∈ Finset.range 4, b.getD (12 + i) 0 <<< (8 * i) := by
  have hslice : pyTailSlice b 4 = b.drop 12 := by
    simp [pyTailSlice, hlen]
  have hdl : (b.drop 12).length = 4 := by
    simp [hlen]
  rw [hslice, leWord_four _ hdl]
  apply Finset.sum_congr rfl
  intro i hi
  have hi4 : i < 4 := Finset.mem_range.mp hi
  congr 1
  rw [List.getD_eq_getElem _ _ (by omega), List.getD_eq_getElem _ _ (by omega)]
  exact List.getElem_drop _

/-- The 16-byte scenario buffer from the specification:
`[10,0,0,0,0,0,0,0, 5,0,0,0, 0x00,0x00,0x80,0x3F]`. -/
def exBuf16 : List Nat := [10, 0, 0, 0, 0, 0, 0, 0, 5, 0, 0, 0, 0x00, 0x00, 0x80, 0x3F]

/-- Claim C2: on every 16-byte buffer the decoder yields
`time = ∑ b[i] <<< 8i (i < 8)` (an unsigned 64-bit quantity),
`type = ∑ b[8+i] <<< 8i (i < 4)` (unsigned 32-bit), and the value bits
assembled little-endian from bytes 12-15, whose IEEE-754 single-precision
reading on the scenario buffer `exBuf16` is time=10, type=5, value=1.0. -/
theorem claim_C2 (b : List Nat) (hlen : b.length = 16) (hb : ∀ x ∈ b, x < 256) :
    decode_record b = .ok
      ⟨∑ i ∈ Finset.range 8, b.getD i 0 <<< (8 * i),
       ∑ i ∈ Finset.range 4, b.getD (8 + i) 0 <<< (8 * i),
       ∑ i ∈ Finset.range 4, b.getD (12 + i) 0 <<< (8 * i)⟩
    ∧ (∑ i ∈ Finset.range 8, b.getD i 0 <<< (8 * i)) < 2 ^ 64
    ∧ (∑ i ∈ Finset.range 4, b.getD (8 + i) 0 <<< (8 * i)) < 2 ^ 32
    ∧ decode_record exBuf16 = .ok ⟨10, 5, 1065353216⟩
    ∧ float32OfBits 1065353216 = some 1 := by
  refine ⟨?_, ?_, ?_, rfl, by norm_num [float32OfBits]⟩
  · rw [decode_record_of_twelve_le b hb (by omega), leWord_tail16 b hlen]
  · exact (leBytesAux_spec b hb 0 8).2
  · exact (leBytesAux_spec b hb 8 4).2

/-- Witness for C2: the theorem applied to the concrete scenario buffer. -/
theorem claim_C2_witness :
    decode_record exBuf16 = .ok ⟨10, 5, 1065353216⟩ ∧ float32OfBits 1065353216 = some 1 := by
  have h := claim_C2 exBuf16 rfl (by decide)
  exact ⟨h.2.2.2.1, h.2.2.2.2⟩

/-- A 12-byte (short) buffer: the 16-byte scenario buffer truncated after the
type field. -/
def exBuf12 : List Nat := [10, 0, 0, 0, 0, 0, 0, 0, 5, 0, 0, 0]

/-- Counterexample to claim C8 as stated: a buffer shorter than 16 bytes on
which the decoder does *not* fail — it returns a complete record whose value
field is assembled from the last four available bytes (here the type bytes
`[5,0,0,0]`), because `test[-4::]` never checks that 16 bytes were read. -/
theorem claim_C8_counterexample :
    exBuf12.length < 16 ∧ decode_record exBuf12 = .ok ⟨10, 5, 5⟩ :=
  ⟨by decide, rfl⟩

/-- Claim C8 (amended): a buffer of fewer than 12 bytes makes one of the two
accumulation loops raise `IndexError` (there is no dedicated `DecodeError`)
and no record is produced; but a buffer of 12 to 15 bytes decodes without any
error, with the value field taken from the last four available bytes, which
overlap the type (or time) field. -/
theorem claim_C8 (b : List Nat) (hb : ∀ x ∈ b, x < 256) :
    (b.length < 12 → decode_record b = .error .indexError)
    ∧ (12 ≤ b.length → b.length < 16 →
        decode_record b = .ok
          ⟨∑ i ∈ Finset.range 8, b.getD i 0 <<< (8 * i),
           ∑ i ∈ Finset.range 4, b.getD (8 + i) 0 <<< (8 * i),
           leWord (pyTailSlice b 4)⟩) :=
  ⟨fun h => decode_record_of_lt_twelve b hb h,
   fun h _ => decode_record_of_twelve_le b hb h⟩

/-- Witness for the amended C8: both branches evaluated on concrete buffers. -/
theorem claim_C8_witness :
    decode_record [1, 2, 3] = .error .indexError
    ∧ decode_record exBuf12 = .ok ⟨10, 5, 5⟩ := by
  have h1 := (claim_C8 [1, 2, 3] (by decide)).1 (by decide)
  have h2 := (claim_C8 exBuf12 (by decide)).2 (by decide) (by decide)
  refine ⟨h1, h2.trans ?_⟩
  rfl

/-- Claim C4 (code bug): `Reader.start` always raises `TypeError` — the
seeding call passes the keyword `location_id`, which `Crud.add_device` does
not declare — so the demo-device seeding is fatal on every call and the
background thread is never spawned (the claim instead promises non-fatal
best-effort seeding followed by a guaranteed thread start). -/
theorem claim_C4 (s : Store) : reader_start s = .err .typeError s := rfl

/-- The empty database: no rows in any table. -/
def emptyStore : Store := ⟨[], [], [], [], 0, 0⟩

/-- Counterexample to claim C9 as stated: with an empty device table the
iteration does not log-and-retry — `random.choice` raises `IndexError`, the
exception is uncaught, and the loop thread crashes. -/
theorem claim_C9_counterexample :
    run_iteration emptyStore 0 exBuf16 none = .crashed .indexError emptyStore := rfl

/-- Claim C9 (amended): whenever the known-device-id set is empty, the
device-selection step raises `IndexError` and the iteration — and with it the
whole loop — terminates by crashing, for every random draw, buffer and fault
environment; it does not retry. -/
theorem claim_C9 (s : Store) (h : get_all_device_ids s = []) :
    (∀ pick buf fault, run_iteration s pick buf fault = .crashed .indexError s)
    ∧ (∀ fuel k pick bufs faults,
        run_loop (fuel + 1) k s pick bufs faults = .crashed .indexError s) := by
  have hiter : ∀ pick buf fault, run_iteration s pick buf fault = .crashed .indexError s := by
    intro pick buf fault
    simp [run_iteration, pyChoice, h]
  refine ⟨hiter, ?_⟩
  intro fuel k pick bufs faults
  simp [run_loop, hiter (pick k) (bufs k) (faults k)]

/-- Witness for the amended C9: the empty store crashes the iteration and the
loop. -/
theorem claim_C9_witness :
    run_iteration emptyStore 1 [] (some .operationalError) = .crashed .indexError emptyStore
    ∧ run_loop 3 0 emptyStore (fun _ => 0) (fun _ => exBuf16) (fun _ => none)
        = .crashed .indexError emptyStore := by
  have h := claim_C9 emptyStore rfl
  exact ⟨h.1 1 [] (some .operationalError), h.2 2 0 (fun _ => 0) (fun _ => exBuf16) (fun _ => none)⟩

/-- A store holding one registered device (id 1) and nothing else. -/
def devStore : Store := ⟨[], [], [⟨1, some ("Device1"), none, some 1⟩], [], 0, 2⟩

/-- Counterexample to claim C5 as stated: when the persistence step fails with
an error other than `IntegrityError` (here an engine-level
`OperationalError`), the iteration does not log-and-continue — the exception
is uncaught and the loop crashes. -/
theorem claim_C5_counterexample :
    run_iteration devStore 0 exBuf16 (some .operationalError)
      = .crashed .operationalError
          ⟨[⟨5, "TYPE_5", "UNIT_5"⟩], [], [⟨1, some ("Device1"), none, some 1⟩], [], 0, 2⟩ := rfl

/-- Claim C5 (amended): in a running iteration (device chosen, record
decoded), if `add_value` fails with `IntegrityError` the loop breaks and
stops gracefully — the result does not depend on the remaining fuel, i.e.
no further iteration runs; but if `add_value` fails with any *other* error
the exception propagates and the loop crashes instead of continuing. -/
theorem claim_C5 (fuel k : Nat) (s : Store) (pick : Nat → Nat) (bufs : Nat → List Nat)
    (faults : Nat → Option PyErr) (dev : Nat) (r : SensorRecord)
    (hdev : pyChoice (get_all_device_ids s) (pick k) = .ok dev)
    (hdec : decode_record (bufs k) = .ok r) :
    (∀ s1, add_value s r.value_time r.type_num r.value (some dev) (faults k)
        = .err .integrityError s1 →
      run_loop (fuel + 1) k s pick bufs faults = .stopped s1)
    ∧ (∀ e s1, e ≠ .integrityError →
        add_value s r.value_time r.type_num r.value (some dev) (faults k) = .err e s1 →
      run_loop (fuel + 1) k s pick bufs faults = .crashed e s1) := by
  constructor
  · intro s1 hadd
    simp [run_loop, run_iteration, hdev, hdec, hadd]
  · intro e s1 hne hadd
    cases e
    case integrityError => exact absurd rfl hne
    all_goals simp [run_loop, run_iteration, hdev, hdec, hadd]

/-- A store that already holds the decoded scenario value for device 1
(type row present, as every reachable conflicting state has it). -/
def dupStore : Store :=
  ⟨[⟨5, "TYPE_5", "UNIT_5"⟩], [⟨0, 10, 1065353216, 5, some 1⟩],
   [⟨1, some ("Device1"), none, some 1⟩], [], 1, 2⟩

/-- Witness for the amended C5: on `dupStore` the scenario record is a
duplicate, `add_value` raises `IntegrityError`, and the loop stops gracefully
with fuel to spare. -/
theorem claim_C5_witness :
    run_loop 4 0 dupStore (fun _ => 0) (fun _ => exBuf16) (fun _ => none) = .stopped dupStore := by
  have h := claim_C5 3 0 dupStore (fun _ => 0) (fun _ => exBuf16) (fun _ => none) 1
    ⟨10, 5, 1065353216⟩ rfl rfl
  exact h.1 dupStore rfl

/-- Counterexample to claim C3 as stated: starting from `devStore` (no value
types yet), an `add_value` call whose outer commit fails still leaves behind
the `TYPE_5` value-type row, because the resolve step ran in its own session
and had already committed — the call is not one atomic unit of work. -/
theorem claim_C3_counterexample :
    add_value devStore 10 5 1065353216 (some 1) (some .operationalError)
      = .err .operationalError
          ⟨[⟨5, "TYPE_5", "UNIT_5"⟩], [], [⟨1, some ("Device1"), none, some 1⟩], [], 0, 2⟩
    ∧ devStore.valueTypes = [] :=
  ⟨rfl, rfl⟩

/-- The resolve step never touches the `value` table. -/
theorem upsert_snd_values (s : Store) (idn : Nat) (n u : Option String) :
    (add_or_update_value_type s idn n u).2.values = s.values := rfl

/-- Claim C3 (amended): `add_value` is atomic only in its value-row write:
whenever the call fails, the resulting state is exactly the state committed
by the resolve step (`add_or_update_value_type`, which commits in its own
session and is not rolled back), and in particular the `values` table is
unchanged. -/
theorem claim_C3 (s : Store) (t ty v : Nat) (d : Option Nat) (f : Option PyErr)
    (e : PyErr) (s1 : Store) (h : add_value s t ty v d f = .err e s1) :
    s1 = (add_or_update_value_type s ty none none).2 ∧ s1.values = s.values := by
  simp only [add_value] at h
  cases f with
  | some e2 =>
    injection h with h1 h2
    exact ⟨h2.symm, by rw [← h2]; exact upsert_snd_values s ty none none⟩
  | none =>
    by_cases hv : violatesValueUnique (add_or_update_value_type s ty none none).2.values t
        (add_or_update_value_type s ty none none).1.id d = true
    · simp only [hv, if_pos] at h
      injection h with h1 h2
      exact ⟨h2.symm, by rw [← h2]; exact upsert_snd_values s ty none none⟩
    · simp only [Bool.not_eq_true] at hv
      simp only [hv] at h
      cases h

/-- The row returned by the resolve step always carries the requested id. -/
theorem upsert_fst_id (s : Store) (idn : Nat) (n u : Option String) :
    (add_or_update_value_type s idn n u).1.id = idn := by
  simp only [add_or_update_value_type]
  cases hl : (s.valueTypes.filter (fun vt => vt.id == idn)).getLast? with
  | none => rfl
  | some vt =>
    have hmem : vt ∈ s.valueTypes.filter (fun x => x.id == idn) :=
      List.mem_of_getLast?_eq_some hl
    have hid := (List.mem_filter.mp hmem).2
    simpa using hid

/-- The resolve step never touches the autoincrement counter of `value`. -/
theorem upsert_snd_nextValueId (s : Store) (idn : Nat) (n u : Option String) :
    (add_or_update_value_type s idn n u).2.nextValueId = s.nextValueId := rfl

/-- A true `sqlNullEq` comparison implies plain equality (both sides
non-NULL). -/
theorem sqlNullEq_eq_of_true {a b : Option Nat} (h : sqlNullEq a b = true) : a = b := by
  cases a <;> cases b <;> simp_all [sqlNullEq]

/-- `sqlNullEq` is reflexive on non-NULL values. -/
theorem sqlNullEq_self_some (x : Nat) : sqlNullEq (some x) (some x) = true := by
  simp [sqlNullEq]

/-- Membership form of the unique-constraint check. -/
theorem violatesValueUnique_iff (vals : List Value) (t ty : Nat) (d : Option Nat) :
    violatesValueUnique vals t ty d = true ↔
      ∃ r ∈ vals, r.time = t ∧ r.value_type_id = ty ∧ sqlNullEq r.device_id d = true := by
  simp [violatesValueUnique, List.any_eq_true, and_assoc]

/-- A duplicate triple makes `add_value` raise `IntegrityError`; the resulting
state is the one the resolve step committed. -/
theorem add_value_err_of_dup (s : Store) (t ty v : Nat) (d : Option Nat)
    (h : violatesValueUnique s.values t ty d = true) :
    add_value s t ty v d none
      = .err .integrityError (add_or_update_value_type s ty none none).2 := by
  have hc : violatesValueUnique (add_or_update_value_type s ty none none).2.values t
      (add_or_update_value_type s ty none none).1.id d = true := by
    rw [upsert_snd_values, upsert_fst_id]
    exact h
  simp [add_value, hc]

/-- Without a collision `add_value` succeeds and appends exactly one row. -/
theorem add_value_ok_of_fresh (s : Store) (t ty v : Nat) (d : Option Nat)
    (h : violatesValueUnique s.values t ty d = false) :
    add_value s t ty v d none
      = .ok () { (add_or_update_value_type s ty none none).2 with
                 values := s.values ++ [⟨s.nextValueId, t, v, ty, d⟩],
                 nextValueId := s.nextValueId + 1 } := by
  have hc : violatesValueUnique (add_or_update_value_type s ty none none).2.values t
      (add_or_update_value_type s ty none none).1.id d = false := by
    rw [upsert_snd_values, upsert_fst_id]
    exact h
  simp [add_value, hc, h, upsert_snd_values, upsert_fst_id, upsert_snd_nextValueId]

/-- Claim C1 (amended): for a *non-null* deviceId, a second insert of an
already present `(time, typeId, deviceId)` triple fails with
`IntegrityError` regardless of the value field, and the stored value rows are
unchanged afterwards; an insert whose triple is not yet present succeeds and
appends exactly one new row — in particular every null-device insert
succeeds, because the SQLite unique index treats NULLs as pairwise
distinct. -/
theorem claim_C1 (s : Store) (t ty v : Nat) (d : Option Nat) :
    (d.isSome = true →
      (∃ r ∈ s.values, r.time = t ∧ r.value_type_id = ty ∧ r.device_id = d) →
      ∃ s1, add_value s t ty v d none = .err .integrityError s1 ∧ s1.values = s.values)
    ∧ ((∀ r ∈ s.values, ¬ (r.time = t ∧ r.value_type_id = ty ∧ r.device_id = d)) →
      ∃ s1, add_value s t ty v d none = .ok () s1
        ∧ s1.values = s.values ++ [⟨s.nextValueId, t, v, ty, d⟩]) := by
  constructor
  · rintro hd ⟨r, hr, ht, hty, hdev⟩
    obtain ⟨x, hx⟩ := Option.isSome_iff_exists.mp hd
    have hviol : violatesValueUnique s.values t ty d = true := by
      rw [violatesValueUnique_iff]
      exact ⟨r, hr, ht, hty, by rw [hdev, hx]; exact sqlNullEq_self_some x⟩
    exact ⟨_, add_value_err_of_dup s t ty v d hviol, upsert_snd_values s ty none none⟩
  · intro hfresh
    have hviol : violatesValueUnique s.values t ty d = false := by
      rw [Bool.eq_false_iff]
      intro hcon
      rw [violatesValueUnique_iff] at hcon
      obtain ⟨r, hr, ht, hty, hsql⟩ := hcon
      exact hfresh r hr ⟨ht, hty, sqlNullEq_eq_of_true hsql⟩
    exact ⟨_, add_value_ok_of_fresh s t ty v d hviol, rfl⟩

/-- A store that already holds the triple `(10, 5, NULL)`: one value with no
assigned device. -/
def nullDevStore : Store :=
  ⟨[⟨5, "TYPE_5", "UNIT_5"⟩], [⟨0, 10, 7, 5, none⟩], [], [], 1, 0⟩

/-- Counterexample to claim C1 as stated: the triple `(10, 5, None)` already
exists in `nullDevStore`, yet a second insert with exactly that triple (and a
different value) succeeds instead of failing with a constraint violation —
SQLite's unique index never fires on NULL device ids. -/
theorem claim_C1_counterexample :
    (⟨0, 10, 7, 5, none⟩ : Value) ∈ nullDevStore.values
    ∧ add_value nullDevStore 10 5 8 none none
        = .ok () ⟨[⟨5, "TYPE_5", "UNIT_5"⟩], [⟨0, 10, 7, 5, none⟩, ⟨1, 10, 8, 5, none⟩],
                  [], [], 2, 0⟩ :=
  ⟨by decide, rfl⟩

/-- Witness for the amended C1: both branches applied on `dupStore` — the
duplicate `(10, 5, device 1)` insert fails with the values table unchanged,
and a fresh triple `(11, 5, device 1)` insert succeeds. -/
theorem claim_C1_witness :
    (∃ s1, add_value dupStore 10 5 99 (some 1) none = .err .integrityError s1
      ∧ s1.values = dupStore.values)
    ∧ (∃ s1, add_value dupStore 11 5 99 (some 1) none = .ok () s1
      ∧ s1.values = dupStore.values ++ [⟨1, 11, 99, 5, some 1⟩]) := by
  constructor
  · exact (claim_C1 dupStore 10 5 99 (some 1)).1 rfl
      ⟨⟨0, 10, 1065353216, 5, some 1⟩, by decide, rfl, rfl, rfl⟩
  · exact (claim_C1 dupStore 11 5 99 (some 1)).2 (by decide)

/-- With pairwise-distinct keys (the primary-key invariant), filtering on one
key yields exactly the matching row. -/
theorem filter_key_eq_singleton {α : Type} (key : α → Nat) {l : List α}
    (hnd : (l.map key).Nodup) {a : α} (ha : a ∈ l) {k : Nat} (hk : key a = k) :
    l.filter (fun x => key x == k) = [a] := by
  induction l with
  | nil => cases ha
  | cons h tl ih =>
    rw [List.map_cons, List.nodup_cons] at hnd
    rcases List.mem_cons.mp ha with rfl | hmem
    · rw [List.filter_cons_of_pos (by simp [hk])]
      have htl : tl.filter (fun x => key x == k) = [] := by
        rw [List.filter_eq_nil_iff]
        intro x hx hxk
        have hxk2 : key x = k := by simpa using hxk
        exact hnd.1 (by
          rw [show key a = key x from hk.trans hxk2.symm]
          exact List.mem_map_of_mem key hx)
      rw [htl]
    · have hne : ¬ ((key h == k) = true) := by
        intro hhk
        apply hnd.1
        rw [show key h = key a from by rw [hk]; simpa using hhk]
        exact List.mem_map_of_mem key hmem
      rw [List.filter_cons_of_neg (by simpa using hne)]
      exact ih hnd.2 hmem

/-- Replacing the unique key-`k` row by itself leaves the table unchanged. -/
theorem map_replace_self {α : Type} (key : α → Nat) {l : List α} {k : Nat} {a : α}
    (hfil : l.filter (fun x => key x == k) = [a]) :
    l.map (fun x => if key x == k then a else x) = l := by
  induction l with
  | nil => rfl
  | cons h tl ih =>
    by_cases hh : (key h == k) = true
    · rw [List.filter_cons_of_pos (by simpa using hh)] at hfil
      injection hfil with h1 h2
      subst h1
      have hnil := List.filter_eq_nil_iff.mp h2
      rw [List.map_cons, if_pos hh]
      congr 1
      conv_rhs => rw [← List.map_id' tl]
      apply List.map_congr_left
      intro x hx
      rw [if_neg (hnil x hx)]
    · rw [List.filter_cons_of_neg (by simpa using hh)] at hfil
      rw [List.map_cons, if_neg hh, ih hfil]

/-- Claim C10: on a store whose device primary keys are distinct, calling
`update_device` with both `name` and `description` omitted leaves the whole
store — the device's fields, the other devices, and every other table —
literally unchanged when the id exists, and fails with `NoResultFound`
exactly when the id is absent. -/
theorem claim_C10 (s : Store) (idn : Nat)
    (hnd : (s.devices.map Device.id).Nodup) :
    ((∃ d ∈ s.devices, d.id = idn) → update_device s idn none none = .ok () s)
    ∧ ((∀ d ∈ s.devices, d.id ≠ idn) → update_device s idn none none = .err .noResultFound s) := by
  constructor
  · rintro ⟨d, hd, hid⟩
    have hfil : s.devices.filter (fun x => x.id == idn) = [d] :=
      filter_key_eq_singleton Device.id hnd hd hid
    simp only [update_device, hfil]
    have hmap : s.devices.map
        (fun x => if x.id == idn then
          { x with name := x.name, description := x.description } else x) = s.devices := by
      conv_rhs => rw [← List.map_id' s.devices]
      apply List.map_congr_left
      intro x _
      split <;> rfl
    rw [hmap]
  · intro habs
    have hfil : s.devices.filter (fun x => x.id == idn) = [] := by
      rw [List.filter_eq_nil_iff]
      intro x hx
      simp [habs x hx]
    simp only [update_device, hfil]

/-- Witness for C10: on `devStore` (one device, id 1) updating device 1 with
no fields is a no-op, and updating the absent device 2 raises
`NoResultFound`. -/
theorem claim_C10_witness :
    update_device devStore 1 none none = .ok () devStore
    ∧ update_device devStore 2 none none = .err .noResultFound devStore := by
  refine ⟨(claim_C10 devStore 1 (by decide)).1 ?_, (claim_C10 devStore 2 (by decide)).2 ?_⟩
  · exact ⟨⟨1, some ("Device1"), none, some 1⟩, by decide, rfl⟩
  · decide

/-- A string with a non-empty left part is non-empty. -/
theorem append_ne_empty (a b : String) (ha : a.length ≠ 0) : a ++ b ≠ "" := by
  intro hcon
  have hl := congrArg String.length hcon
  rw [String.length_append] at hl
  have h0 : ("" : String).length = 0 := rfl
  omega

/-- The name placeholder is never the empty string. -/
theorem type_placeholder_ne_empty (idn : Nat) : ("TYPE_" ++ toString idn) ≠ "" :=
  append_ne_empty _ _ (by decide)

/-- The unit placeholder is never the empty string. -/
theorem unit_placeholder_ne_empty (idn : Nat) : ("UNIT_" ++ toString idn) ≠ "" :=
  append_ne_empty _ _ (by decide)

/-- Whatever the inputs, the field chosen by the if/elif chain is non-empty
as long as the placeholder is (the "never left blank" guarantee). -/
theorem upsertField_ne_empty (n : Option String) (cur p : String) (hp : p ≠ "") :
    upsertField n cur p ≠ "" := by
  unfold upsertField
  split
  · rename_i htr
    cases n with
    | none => simp [pyTruthy] at htr
    | some str =>
      simp only [Option.getD_some]
      simpa [pyTruthy] using htr
  · split
    · exact hp
    · rename_i hcur
      simpa using hcur

/-- Applying the if/elif chain twice with the same supplied value is the same
as applying it once, provided the placeholder is non-empty. -/
theorem upsertField_idem (n : Option String) (cur p : String) (hp : p ≠ "") :
    upsertField n (upsertField n cur p) p = upsertField n cur p := by
  have hne : upsertField n cur p ≠ "" := upsertField_ne_empty n cur p hp
  by_cases ht : pyTruthy n = true
  · conv_lhs => rw [upsertField]
    rw [if_pos ht, upsertField, if_pos ht]
  · conv_lhs => rw [upsertField]
    rw [if_neg ht, if_neg (by simpa using hne)]

/-- `add_or_update_value_type` on an id with no matching row: a fresh row is
created from the empty transient object and appended. -/
theorem upsert_fresh (s : Store) (idn : Nat) (n u : Option String)
    (h : ∀ vt ∈ s.valueTypes, vt.id ≠ idn) :
    add_or_update_value_type s idn n u =
      (⟨idn, upsertField n ("") ("TYPE_" ++ toString idn),
            upsertField u ("") ("UNIT_" ++ toString idn)⟩,
       { s with valueTypes := s.valueTypes ++
          [⟨idn, upsertField n ("") ("TYPE_" ++ toString idn),
                upsertField u ("") ("UNIT_" ++ toString idn)⟩] }) := by
  have hfil : s.valueTypes.filter (fun vt => vt.id == idn) = [] := by
    rw [List.filter_eq_nil_iff]
    intro x hx
    simp [h x hx]
  simp [add_or_update_value_type, hfil]

/-- `add_or_update_value_type` on the id of an existing row `vt` (unique by
the primary key): the row is rewritten field by field in place. -/
theorem upsert_existing (s : Store) (n u : Option String) (vt : ValueType)
    (hnd : (s.valueTypes.map ValueType.id).Nodup) (hvt : vt ∈ s.valueTypes) :
    add_or_update_value_type s vt.id n u =
      (⟨vt.id, upsertField n vt.type_name ("TYPE_" ++ toString vt.id),
              upsertField u vt.type_unit ("UNIT_" ++ toString vt.id)⟩,
       { s with valueTypes := s.valueTypes.map (fun x => if x.id == vt.id then
           ⟨vt.id, upsertField n vt.type_name ("TYPE_" ++ toString vt.id),
                  upsertField u vt.type_unit ("UNIT_" ++ toString vt.id)⟩ else x) }) := by
  have hfil : s.valueTypes.filter (fun x => x.id == vt.id) = [vt] :=
    filter_key_eq_singleton ValueType.id hnd hvt rfl
  simp [add_or_update_value_type, hfil]

/-- Replacing a row does not change the set of primary keys. -/
theorem map_ids_of_replace (l : List ValueType) (idn : Nat) (newVt : ValueType)
    (hid : newVt.id = idn) :
    (l.map (fun x => if x.id == idn then newVt else x)).map ValueType.id
      = l.map ValueType.id := by
  rw [List.map_map]
  apply List.map_congr_left
  intro x _
  by_cases h : (x.id == idn) = true
  · simp only [Function.comp_apply, if_pos h, hid]
    exact (beq_iff_eq.mp h).symm
  · simp only [Function.comp_apply, if_neg h]

/-- Upserting onto a row that both field chains leave unchanged is a complete
no-op: the returned row is that row and the store is untouched. -/
theorem upsert_of_complete_row (s : Store) (n u : Option String) (vt : ValueType)
    (hnd : (s.valueTypes.map ValueType.id).Nodup) (hvt : vt ∈ s.valueTypes)
    (hname : upsertField n vt.type_name ("TYPE_" ++ toString vt.id) = vt.type_name)
    (hunit : upsertField u vt.type_unit ("UNIT_" ++ toString vt.id) = vt.type_unit) :
    add_or_update_value_type s vt.id n u = (vt, s) := by
  rw [upsert_existing s n u vt hnd hvt]
  have hrow : (⟨vt.id, upsertField n vt.type_name ("TYPE_" ++ toString vt.id),
      upsertField u vt.type_unit ("UNIT_" ++ toString vt.id)⟩ : ValueType) = vt := by
    conv_rhs => rw [show vt = (⟨vt.id, vt.type_name, vt.type_unit⟩ : ValueType) from rfl]
    rw [hname, hunit]
  rw [hrow]
  have hfil : s.valueTypes.filter (fun x => x.id == vt.id) = [vt] :=
    filter_key_eq_singleton ValueType.id hnd hvt rfl
  rw [map_replace_self ValueType.id hfil]

/-- Claim C6: `add_or_update_value_type` creates a row with placeholder name
`"TYPE_<id>"` and unit `"UNIT_<id>"` when no row with that id exists and both
fields are omitted; on an existing row only non-empty supplied values
overwrite (empty or omitted values are ignored and never clear a field) and
no other row changes; and the operation is idempotent — a second call with
identical arguments returns the same row and leaves the store exactly as
after the first call.  Hypotheses: distinct primary keys and non-blank
fields, the invariants every committed `value_type` table satisfies. -/
theorem claim_C6 (s : Store) (idn : Nat) (n u : Option String)
    (hnd : (s.valueTypes.map ValueType.id).Nodup)
    (hfill : ∀ vt ∈ s.valueTypes, vt.type_name ≠ "" ∧ vt.type_unit ≠ "") :
    ((∀ vt ∈ s.valueTypes, vt.id ≠ idn) →
      add_or_update_value_type s idn none none
        = (⟨idn, "TYPE_" ++ toString idn, "UNIT_" ++ toString idn⟩,
           { s with valueTypes := s.valueTypes
               ++ [⟨idn, "TYPE_" ++ toString idn, "UNIT_" ++ toString idn⟩] }))
    ∧ (∀ vt ∈ s.valueTypes, vt.id = idn →
        (∀ nm, n = some nm → nm ≠ "" →
          (add_or_update_value_type s idn n u).1.type_name = nm)
        ∧ ((n = none ∨ n = some ("")) →
          (add_or_update_value_type s idn n u).1.type_name = vt.type_name)
        ∧ (∀ un, u = some un → un ≠ "" →
          (add_or_update_value_type s idn n u).1.type_unit = un)
        ∧ ((u = none ∨ u = some ("")) →
          (add_or_update_value_type s idn n u).1.type_unit = vt.type_unit)
        ∧ (add_or_update_value_type s idn n u).2.valueTypes
            = s.valueTypes.map (fun x =>
                if x.id == idn then (add_or_update_value_type s idn n u).1 else x))
    ∧ add_or_update_value_type (add_or_update_value_type s idn n u).2 idn n u
        = add_or_update_value_type s idn n u := by
  refine ⟨?_, ?_, ?_⟩
  · intro h
    rw [upsert_fresh s idn none none h]
    rfl
  · intro vt hvt hid
    subst hid
    have hex := upsert_existing s n u vt hnd hvt
    refine ⟨?_, ?_, ?_, ?_, ?_⟩
    · rintro nm rfl hnm
      rw [hex]
      simp [upsertField, pyTruthy, hnm]
    · rintro (rfl | rfl)
      · rw [hex]
        simp [upsertField, pyTruthy, (hfill vt hvt).1]
      · rw [hex]
        simp [upsertField, pyTruthy, (hfill vt hvt).1]
    · rintro un rfl hun
      rw [hex]
      simp [upsertField, pyTruthy, hun]
    · rintro (rfl | rfl)
      · rw [hex]
        simp [upsertField, pyTruthy, (hfill vt hvt).2]
      · rw [hex]
        simp [upsertField, pyTruthy, (hfill vt hvt).2]
    · rw [hex]
  · by_cases hex2 : ∃ vt ∈ s.valueTypes, vt.id = idn
    · obtain ⟨vt, hvt, hid⟩ := hex2
      subst hid
      rw [upsert_existing s n u vt hnd hvt]
      have hnd1 : (((s.valueTypes.map (fun x => if x.id == vt.id then
          (⟨vt.id, upsertField n vt.type_name ("TYPE_" ++ toString vt.id),
                  upsertField u vt.type_unit ("UNIT_" ++ toString vt.id)⟩ : ValueType)
          else x))).map ValueType.id).Nodup := by
        rw [map_ids_of_replace s.valueTypes vt.id
          (⟨vt.id, upsertField n vt.type_name ("TYPE_" ++ toString vt.id),
                  upsertField u vt.type_unit ("UNIT_" ++ toString vt.id)⟩ : ValueType) rfl]
        exact hnd
      have hmem1 : (⟨vt.id, upsertField n vt.type_name ("TYPE_" ++ toString vt.id),
          upsertField u vt.type_unit ("UNIT_" ++ toString vt.id)⟩ : ValueType)
          ∈ s.valueTypes.map (fun x => if x.id == vt.id then
            (⟨vt.id, upsertField n vt.type_name ("TYPE_" ++ toString vt.id),
                    upsertField u vt.type_unit ("UNIT_" ++ toString vt.id)⟩ : ValueType)
            else x) := by
        have := List.mem_map_of_mem (fun x => if x.id == vt.id then
            (⟨vt.id, upsertField n vt.type_name ("TYPE_" ++ toString vt.id),
                    upsertField u vt.type_unit ("UNIT_" ++ toString vt.id)⟩ : ValueType)
            else x) hvt
        simpa using this
      exact upsert_of_complete_row
        { s with valueTypes := s.valueTypes.map (fun x => if x.id == vt.id then
            (⟨vt.id, upsertField n vt.type_name ("TYPE_" ++ toString vt.id),
                    upsertField u vt.type_unit ("UNIT_" ++ toString vt.id)⟩ : ValueType)
            else x) }
        n u
        (⟨vt.id, upsertField n vt.type_name ("TYPE_" ++ toString vt.id),
                upsertField u vt.type_unit ("UNIT_" ++ toString vt.id)⟩ : ValueType)
        hnd1 hmem1
        (upsertField_idem n vt.type_name ("TYPE_" ++ toString vt.id)
          (type_placeholder_ne_empty vt.id))
        (upsertField_idem u vt.type_unit ("UNIT_" ++ toString vt.id)
          (unit_placeholder_ne_empty vt.id))
    · have h : ∀ vt ∈ s.valueTypes, vt.id ≠ idn := by
        intro vt hvt hid
        exact hex2 ⟨vt, hvt, hid⟩
      rw [upsert_fresh s idn n u h]
      have hnd1 : (((s.valueTypes ++
          [(⟨idn, upsertField n ("") ("TYPE_" ++ toString idn),
                 upsertField u ("") ("UNIT_" ++ toString idn)⟩ : ValueType)]).map
            ValueType.id).Nodup) := by
        rw [List.map_append]
        refine List.Nodup.append hnd (by simp) ?_
        intro a ha hb
        simp only [List.map_cons, List.map_nil, List.mem_singleton] at hb
        obtain ⟨vt, hvt, hvta⟩ := List.mem_map.mp ha
        exact h vt hvt (by rw [hvta, hb])
      have hmem1 : (⟨idn, upsertField n ("") ("TYPE_" ++ toString idn),
          upsertField u ("") ("UNIT_" ++ toString idn)⟩ : ValueType)
          ∈ s.valueTypes ++
            [(⟨idn, upsertField n ("") ("TYPE_" ++ toString idn),
                   upsertField u ("") ("UNIT_" ++ toString idn)⟩ : ValueType)] := by
        simp
      exact upsert_of_complete_row
        { s with valueTypes := s.valueTypes ++
            [(⟨idn, upsertField n ("") ("TYPE_" ++ toString idn),
                   upsertField u ("") ("UNIT_" ++ toString idn)⟩ : ValueType)] }
        n u
        (⟨idn, upsertField n ("") ("TYPE_" ++ toString idn),
              upsertField u ("") ("UNIT_" ++ toString idn)⟩ : ValueType)
        hnd1 hmem1
        (upsertField_idem n ("") ("TYPE_" ++ toString idn) (type_placeholder_ne_empty idn))
        (upsertField_idem u ("") ("UNIT_" ++ toString idn) (unit_placeholder_ne_empty idn))

/-- Witness for C6: a fresh id on the empty store gets both placeholders, and
the repeated call is a no-op returning the same row and state. -/
theorem claim_C6_witness :
    add_or_update_value_type emptyStore 7 none none
      = (⟨7, "TYPE_7", "UNIT_7"⟩,
         { emptyStore with valueTypes := [⟨7, "TYPE_7", "UNIT_7"⟩] })
    ∧ add_or_update_value_type (add_or_update_value_type emptyStore 7 none none).2 7 none none
        = add_or_update_value_type emptyStore 7 none none := by
  have h := claim_C6 emptyStore 7 none none (by simp [emptyStore]) (by simp [emptyStore])
  refine ⟨?_, h.2.2⟩
  have h1 := h.1 (by simp [emptyStore])
  rw [h1]
  rfl

instance : IsTotal Value (fun x y => x.time ≤ y.time) :=
  ⟨fun a b => Nat.le_total a.time b.time⟩

instance : IsTrans Value (fun x y => x.time ≤ y.time) :=
  ⟨fun _ _ _ h1 h2 => Nat.le_trans h1 h2⟩

/-- Under referential integrity (the type row of the value exists — which
`add_value` guarantees by resolving the type first), the SQL join filter of
`get_values` coincides with the plain column comparison. -/
theorem join_pred_eq (s : Store) (ty : Nat) (v : Value)
    (hv : ∃ vt ∈ s.valueTypes, vt.id = v.value_type_id) :
    s.valueTypes.any (fun vt => vt.id == v.value_type_id && vt.id == ty)
      = (v.value_type_id == ty) := by
  obtain ⟨vt0, hmem, hid⟩ := hv
  cases hb : (v.value_type_id == ty) with
  | true =>
    rw [List.any_eq_true]
    refine ⟨vt0, hmem, ?_⟩
    have : v.value_type_id = ty := beq_iff_eq.mp hb
    simp [hid, this]
  | false =>
    rw [List.any_eq_false]
    intro vt hvt hcon
    rw [Bool.and_eq_true] at hcon
    have h1 : vt.id = v.value_type_id := beq_iff_eq.mp hcon.1
    have h2 : vt.id = ty := beq_iff_eq.mp hcon.2
    have : v.value_type_id = ty := h1 ▸ h2
    simp [this] at hb

/-- `get_values` is the time-ordered sort of the conjunctively filtered value
table, under referential integrity. -/
theorem get_values_eq_filter (s : Store) (tyq aq bq : Option Nat)
    (href : ∀ v ∈ s.values, ∃ vt ∈ s.valueTypes, vt.id = v.value_type_id) :
    get_values s tyq aq bq
      = List.insertionSort (fun x y => x.time ≤ y.time)
          (s.values.filter (fun v =>
            (match tyq with | some ty => v.value_type_id == ty | none => true)
            && (match aq with | some a => decide (a ≤ v.time) | none => true)
            && (match bq with | some b => decide (v.time ≤ b) | none => true))) := by
  simp only [get_values]
  congr 1
  have h1 : (match tyq with
      | none => s.values
      | some ty => s.values.filter (fun v =>
          s.valueTypes.any (fun vt => vt.id == v.value_type_id && vt.id == ty)))
      = s.values.filter (fun v =>
          match tyq with | some ty => v.value_type_id == ty | none => true) := by
    cases tyq with
    | none => rw [List.filter_true]
    | some ty =>
      apply List.filter_congr
      intro v hv
      exact join_pred_eq s ty v (href v hv)
  rw [h1]
  have h2 : ∀ (l : List Value), (match aq with
      | none => l
      | some a => l.filter (fun v => decide (a ≤ v.time)))
      = l.filter (fun v => match aq with | some a => decide (a ≤ v.time) | none => true) := by
    intro l
    cases aq with
    | none => rw [List.filter_true]
    | some a => rfl
  have h3 : ∀ (l : List Value), (match bq with
      | none => l
      | some b => l.filter (fun v => decide (v.time ≤ b)))
      = l.filter (fun v => match bq with | some b => decide (v.time ≤ b) | none => true) := by
    intro l
    cases bq with
    | none => rw [List.filter_true]
    | some b => rfl
  rw [h2, h3, List.filter_filter, List.filter_filter]
  apply List.filter_congr
  intro v _
  cases hx : (match tyq with | some ty => v.value_type_id == ty | none => true) <;>
    cases hy : (match aq with | some a => decide (a ≤ v.time) | none => true) <;>
      cases hz : (match bq with | some b => decide (v.time ≤ b) | none => true) <;> rfl

/-- Claim C7: for every store satisfying referential integrity and every
combination of the optional filters, `get_values` returns exactly the values
satisfying all supplied filters conjoined (type equality, `start ≤ time`,
`time ≤ end`; no filter keeps everything), ordered by ascending time. -/
theorem claim_C7 (s : Store) (tyq aq bq : Option Nat)
    (href : ∀ v ∈ s.values, ∃ vt ∈ s.valueTypes, vt.id = v.value_type_id) :
    (get_values s tyq aq bq).Perm
      (s.values.filter (fun v =>
        (match tyq with | some ty => v.value_type_id == ty | none => true)
        && (match aq with | some a => decide (a ≤ v.time) | none => true)
        && (match bq with | some b => decide (v.time ≤ b) | none => true)))
    ∧ List.Sorted (fun x y => x.time ≤ y.time) (get_values s tyq aq bq) := by
  rw [get_values_eq_filter s tyq aq bq href]
  exact ⟨List.perm_insertionSort _ _, List.sorted_insertionSort _ _⟩

/-- A store with two value types and four values, three of type 2. -/
def queryStore : Store :=
  ⟨[⟨2, "TYPE_2", "UNIT_2"⟩, ⟨3, "TYPE_3", "UNIT_3"⟩],
   [⟨0, 150, 1, 2, some 1⟩, ⟨1, 50, 2, 2, some 1⟩, ⟨2, 150, 3, 3, some 1⟩,
    ⟨3, 250, 4, 2, some 1⟩],
   [], [], 4, 0⟩

/-- Witness for C7: the spec's example query `typeId=2, start=100, end=200`
on a concrete store. -/
theorem claim_C7_witness :
    (get_values queryStore (some 2) (some 100) (some 200)).Perm
      (queryStore.values.filter (fun v =>
        (v.value_type_id == 2) && decide (100 ≤ v.time) && decide (v.time ≤ 200)))
    ∧ List.Sorted (fun x y => x.time ≤ y.time)
        (get_values queryStore (some 2) (some 100) (some 200)) :=
  claim_C7 queryStore (some 2) (some 100) (some 200) (by decide)

/-- Witness for the amended C3: the theorem applied to the concrete failing
insert on `dupStore` (duplicate triple, so the insert raises
`IntegrityError`). -/
theorem claim_C3_witness :
    dupStore = (add_or_update_value_type dupStore 5 none none).2
    ∧ dupStore.values = dupStore.values :=
  claim_C3 dupStore 10 5 1065353216 (some 1) none .integrityError dupStore rfl
